import Mathlib

/-!
Verification development for the `universalinit` project scaffolding engine
(`src/universalinit/universalinit.py`, `src/universalinit/templateconfig.py`).

Python strings are modelled as `List Char`; Python's `str.replace` as
`replaceAux` (leftmost, non-overlapping, left-to-right); the file-system
side effects of `FileSystemHelper.copy_template` as a list of `Action`s;
and the control flow of `ProjectTemplate.initialize` /
`ProjectInitializer.initialize_project` as explicit trace-producing
functions over an environment that records the outcome of each step.
-/

namespace UnivInit

/-- Model of Python `str.replace(pat, rep)` on `List Char`: scan left to
right, replace each leftmost non-overlapping occurrence of `pat` by `rep`.
A `[]` pattern never matches here (the source never calls replace with an
empty pattern: every pattern starts with `$` or a brace). -/
def replaceAux (pat rep : List Char) : List Char → List Char
  | [] => []
  | c :: cs =>
    if h : pat ≠ [] ∧ List.isPrefixOf pat (c :: cs) then
      rep ++ replaceAux pat rep (List.drop pat.length (c :: cs))
    else
      c :: replaceAux pat rep cs
termination_by s => s.length
decreasing_by
  · have hp : 0 < pat.length := List.length_pos.mpr h.1
    simp only [List.length_drop, List.length_cons]
    omega
  · simp

/-- One key of the replacement map applied to file content, as in the body of
`FileSystemHelper.copy_template`: first replace `$KEY`, then replace the
brace-wrapped form `\x7bKEY\x7d`, both by the value. -/
def substStep (content : List Char) (kv : List Char × List Char) : List Char :=
  replaceAux ('\x7b' :: kv.1 ++ ['\x7d']) kv.2 (replaceAux ('$' :: kv.1) kv.2 content)

/-- The full content-substitution loop of `copy_template`
(`for key, value in replacements.items(): ...`). -/
def substituteContent (repl : List (List Char × List Char)) (content : List Char) : List Char :=
  repl.foldl substStep content

/-- The file-name substitution loop of `copy_template`: only the `$KEY`
form is applied to the destination path string. -/
def substPath (repl : List (List Char × List Char)) (p : List Char) : List Char :=
  repl.foldl (fun acc kv => replaceAux ('$' :: kv.1) kv.2 acc) p

/-- The token form `$KEY`. -/
def dollarTok (k : List Char) : List Char := '$' :: k

/-- The token form `\x7bKEY\x7d`. -/
def braceTok (k : List Char) : List Char := '\x7b' :: k ++ ['\x7d']

/-! ### Occurrence lemmas for `replaceAux` -/

/-- An infix whose characters all avoid the left part of an append lies in
the right part. -/
theorem infix_append_right_of_disj {tok a b : List Char} (htok : tok ≠ [])
    (hdisj : ∀ c ∈ tok, c ∉ a) (h : tok <:+: a ++ b) : tok <:+: b := by
  induction a with
  | nil => simpa using h
  | cons x a' ih =>
    rw [List.cons_append, List.infix_cons_iff] at h
    rcases h with h | h
    · rcases tok with _ | ⟨t, tok'⟩
      · exact absurd rfl htok
      · rw [List.cons_prefix_cons] at h
        have ht : t ∈ x :: a' := by rw [h.1]; exact List.mem_cons_self x a'
        exact absurd ht (hdisj t (List.mem_cons_self t tok'))
    · exact ih (fun c hc hca => hdisj c hc (List.mem_cons_of_mem x hca)) h

/-- A nonempty prefix of the output of `replaceAux` whose characters avoid
the replacement text is already a prefix of the input string. -/
theorem replaceAux_pullback (pat rep : List Char) (hrep : rep ≠ []) :
    ∀ s q : List Char, q ≠ [] → (∀ c ∈ q, c ∉ rep) →
      q <+: replaceAux pat rep s → q <+: s := by
  intro s
  induction s using replaceAux.induct pat rep with
  | case1 =>
    intro q hq _ hpre
    rw [replaceAux] at hpre
    exact absurd ( List.prefix_nil.mp hpre) hq
  | case2 c cs h ih =>
    intro q hq hdisj hpre
    rw [replaceAux, dif_pos h] at hpre
    rcases q with _ | ⟨t, q'⟩
    · exact absurd rfl hq
    rcases rep with _ | ⟨r, rep'⟩
    · exact absurd rfl hrep
    rw [List.cons_append, List.cons_prefix_cons] at hpre
    have ht : t ∈ r :: rep' := by rw [hpre.1]; exact List.mem_cons_self r rep'
    exact absurd ht (hdisj t (List.mem_cons_self t q'))
  | case3 c cs h ih =>
    intro q hq hdisj hpre
    rw [replaceAux, dif_neg h] at hpre
    rcases q with _ | ⟨t, q'⟩
    · exact absurd rfl hq
    rw [List.cons_prefix_cons] at hpre
    obtain ⟨rfl, hpre'⟩ := hpre
    by_cases hq' : q' = []
    · subst hq'
      exact List.cons_prefix_cons.mpr ⟨rfl, List.nil_prefix⟩
    · exact List.cons_prefix_cons.mpr
        ⟨rfl, ih q' hq' (fun ch hch => hdisj ch (List.mem_cons_of_mem _ hch)) hpre'⟩

/-- `replaceAux pat rep` eliminates every occurrence of `pat`, provided the
replacement text is nonempty and shares no character with the pattern. -/
theorem not_infix_replaceAux (pat rep : List Char) (hpat : pat ≠ []) (hrep : rep ≠ [])
    (hdisj : ∀ c ∈ pat, c ∉ rep) :
    ∀ s : List Char, ¬ pat <:+: replaceAux pat rep s := by
  intro s
  induction s using replaceAux.induct pat rep with
  | case1 =>
    rw [replaceAux]
    intro hinf
    exact hpat ( List.infix_nil.mp hinf)
  | case2 c cs h ih =>
    rw [replaceAux, dif_pos h]
    intro hinf
    exact ih (infix_append_right_of_disj hpat hdisj hinf)
  | case3 c cs h ih =>
    rw [replaceAux, dif_neg h]
    intro hinf
    rcases List.infix_cons_iff.mp hinf with hpre | hinf'
    · rcases pat with _ | ⟨p, pat'⟩
      · exact hpat rfl
      rw [List.cons_prefix_cons] at hpre
      obtain ⟨rfl, hpre'⟩ := hpre
      by_cases hp' : pat' = []
      · subst hp'
        exact h ⟨List.cons_ne_nil _ _,
          List.isPrefixOf_iff_prefix.mpr (List.cons_prefix_cons.mpr ⟨rfl, List.nil_prefix⟩)⟩
      · have hdisj' : ∀ ch ∈ pat', ch ∉ rep :=
          fun ch hch => hdisj ch (List.mem_cons_of_mem _ hch)
        have hcs := replaceAux_pullback _ rep hrep cs pat' hp' hdisj' hpre'
        exact h ⟨List.cons_ne_nil _ _,
          List.isPrefixOf_iff_prefix.mpr (List.cons_prefix_cons.mpr ⟨rfl, hcs⟩)⟩
    · exact ih hinf'

/-- `replaceAux pat rep` creates no new occurrence of a token `tok` whose
characters avoid the replacement text. -/
theorem not_infix_replaceAux_preserve (pat rep tok : List Char) (htok : tok ≠ [])
    (hrep : rep ≠ []) (hdisj : ∀ c ∈ tok, c ∉ rep) :
    ∀ s : List Char, ¬ tok <:+: s → ¬ tok <:+: replaceAux pat rep s := by
  intro s
  induction s using replaceAux.induct pat rep with
  | case1 =>
    intro hs
    rw [replaceAux]
    exact hs
  | case2 c cs h ih =>
    intro hs
    rw [replaceAux, dif_pos h]
    intro hinf
    have hdropped : ¬ tok <:+: List.drop pat.length (c :: cs) := fun hh =>
      hs ( List.IsInfix.trans hh ( List.IsSuffix.isInfix (List.drop_suffix _ _)))
    exact ih hdropped (infix_append_right_of_disj htok hdisj hinf)
  | case3 c cs h ih =>
    intro hs
    rw [replaceAux, dif_neg h]
    intro hinf
    have hs' : ¬ tok <:+: cs := fun hh =>
      hs ( List.IsInfix.trans hh ( List.IsSuffix.isInfix (List.suffix_cons c cs)))
    rcases List.infix_cons_iff.mp hinf with hpre | hinf'
    · rcases tok with _ | ⟨t, tok'⟩
      · exact htok rfl
      rw [List.cons_prefix_cons] at hpre
      obtain ⟨rfl, hpre'⟩ := hpre
      by_cases ht' : tok' = []
      · subst ht'
        exact hs ( List.IsPrefix.isInfix (List.cons_prefix_cons.mpr ⟨rfl, List.nil_prefix⟩))
      · have hdisj' : ∀ ch ∈ tok', ch ∉ rep :=
          fun ch hch => hdisj ch (List.mem_cons_of_mem _ hch)
        have hcs := replaceAux_pullback pat rep hrep cs tok' ht' hdisj' hpre'
        exact hs ( List.IsPrefix.isInfix (List.cons_prefix_cons.mpr ⟨rfl, hcs⟩))
    · exact ih hs' hinf'

/-! ### Token elimination at the level of the whole replacement map -/

/-- Hygiene condition on a replacement map: every value is nonempty and its
characters avoid `$`, both braces, and every key of the map. -/
def mapSafe (repl : List (List Char × List Char)) : Prop :=
  ∀ kv ∈ repl, kv.2 ≠ [] ∧ ∀ c ∈ kv.2,
    c ≠ '$' ∧ c ≠ '\x7b' ∧ c ≠ '\x7d' ∧ ∀ kv' ∈ repl, c ∉ kv'.1

instance (repl : List (List Char × List Char)) : Decidable (mapSafe repl) := by
  unfold mapSafe
  infer_instance

theorem dollarTok_ne_nil (k : List Char) : dollarTok k ≠ [] := List.cons_ne_nil _ _

theorem braceTok_ne_nil (k : List Char) : braceTok k ≠ [] := List.cons_ne_nil _ _

/-- Characters of `$KEY` avoid a value `v` that avoids `$` and the key. -/
theorem dollarTok_disj {k v : List Char}
    (hv : ∀ c ∈ v, c ≠ '$' ∧ c ≠ '\x7b' ∧ c ≠ '\x7d' ∧ c ∉ k) :
    ∀ c ∈ dollarTok k, c ∉ v := by
  intro c hc hcv
  rw [dollarTok] at hc
  rcases List.mem_cons.mp hc with rfl | hck
  · exact (hv _ hcv).1 rfl
  · exact (hv c hcv).2.2.2 hck

/-- Characters of `\x7bKEY\x7d` avoid a value `v` that avoids the braces and
the key. -/
theorem braceTok_disj {k v : List Char}
    (hv : ∀ c ∈ v, c ≠ '$' ∧ c ≠ '\x7b' ∧ c ≠ '\x7d' ∧ c ∉ k) :
    ∀ c ∈ braceTok k, c ∉ v := by
  intro c hc hcv
  rw [braceTok] at hc
  rcases List.mem_cons.mp hc with rfl | hck
  · exact (hv _ hcv).2.1 rfl
  · rcases List.mem_append.mp hck with hk | hbr
    · exact (hv c hcv).2.2.2 hk
    · exact (hv c hcv).2.2.1 (List.mem_singleton.mp hbr)

/-- After `substStep` for the pair `(k, v)`, neither token form of `k`
occurs, provided `v` is nonempty and hygienic for `k`. -/
theorem substStep_no_token {k v : List Char} (hv0 : v ≠ [])
    (hv : ∀ c ∈ v, c ≠ '$' ∧ c ≠ '\x7b' ∧ c ≠ '\x7d' ∧ c ∉ k) (content : List Char) :
    ¬ dollarTok k <:+: substStep content (k, v) ∧
      ¬ braceTok k <:+: substStep content (k, v) := by
  unfold substStep dollarTok braceTok
  constructor
  · exact not_infix_replaceAux_preserve _ v _ (dollarTok_ne_nil k) hv0 (dollarTok_disj hv) _
      (not_infix_replaceAux _ v (dollarTok_ne_nil k) hv0 (dollarTok_disj hv) _)
  · exact not_infix_replaceAux _ v (braceTok_ne_nil k) hv0 (braceTok_disj hv) _

/-- Later steps of the substitution loop preserve absence of a token whose
characters avoid all their values. -/
theorem foldl_substStep_preserve (tok : List Char) (htok : tok ≠ []) :
    ∀ (l : List (List Char × List Char)),
      (∀ kv ∈ l, kv.2 ≠ [] ∧ ∀ c ∈ tok, c ∉ kv.2) →
      ∀ content, ¬ tok <:+: content → ¬ tok <:+: List.foldl substStep content l := by
  intro l
  induction l with
  | nil => intro _ content hc; exact hc
  | cons kv l' ih =>
    intro hl content hc
    rw [List.foldl_cons]
    have hkv := hl kv (List.mem_cons_self kv l')
    have step1 : ¬ tok <:+: replaceAux ('$' :: kv.1) kv.2 content :=
      not_infix_replaceAux_preserve _ _ _ htok hkv.1 hkv.2 _ hc
    have step2 : ¬ tok <:+: substStep content kv :=
      not_infix_replaceAux_preserve _ _ _ htok hkv.1 hkv.2 _ step1
    exact ih (fun kv' hkv' => hl kv' (List.mem_cons_of_mem kv hkv')) _ step2

/-- Main token-elimination property of the content-substitution loop: for a
hygienic replacement map, neither `$KEY` nor `\x7bKEY\x7d` occurs in the
output, for any key `KEY` of the map. -/
theorem substituteContent_no_token {repl : List (List Char × List Char)}
    (hsafe : mapSafe repl) {k v : List Char} (hmem : (k, v) ∈ repl) (content : List Char) :
    ¬ dollarTok k <:+: substituteContent repl content ∧
      ¬ braceTok k <:+: substituteContent repl content := by
  obtain ⟨l1, l2, rfl⟩ := List.append_of_mem hmem
  have hk := hsafe (k, v) hmem
  have hv : ∀ c ∈ v, c ≠ '$' ∧ c ≠ '\x7b' ∧ c ≠ '\x7d' ∧ c ∉ k := by
    intro c hcv
    have h := hk.2 c hcv
    exact ⟨h.1, h.2.1, h.2.2.1, h.2.2.2 (k, v) hmem⟩
  have hl2 : ∀ tok : List Char, (∀ c ∈ tok, c = '$' ∨ c = '\x7b' ∨ c = '\x7d' ∨ c ∈ k) →
      ∀ kv ∈ l2, kv.2 ≠ [] ∧ ∀ c ∈ tok, c ∉ kv.2 := by
    intro tok htokc kv hkv
    have hkvr : kv ∈ l1 ++ (k, v) :: l2 :=
      List.mem_append.mpr (Or.inr (List.mem_cons_of_mem _ hkv))
    refine ⟨(hsafe kv hkvr).1, ?_⟩
    intro c hct hcv
    have h := (hsafe kv hkvr).2 c hcv
    rcases htokc c hct with rfl | rfl | rfl | hck
    · exact h.1 rfl
    · exact h.2.1 rfl
    · exact h.2.2.1 rfl
    · exact h.2.2.2 (k, v) hmem hck
  rw [substituteContent, List.foldl_append, List.foldl_cons]
  set c1 := List.foldl substStep content l1 with hc1
  have hstep := substStep_no_token hk.1 hv c1
  constructor
  · refine foldl_substStep_preserve _ (dollarTok_ne_nil k) l2 (hl2 _ ?_) _ hstep.1
    intro c hc
    rcases List.mem_cons.mp hc with rfl | hck
    · exact Or.inl rfl
    · exact Or.inr (Or.inr (Or.inr hck))
  · refine foldl_substStep_preserve _ (braceTok_ne_nil k) l2 (hl2 _ ?_) _ hstep.2
    intro c hc
    rcases List.mem_cons.mp hc with rfl | hck
    · exact Or.inr (Or.inl rfl)
    · rcases List.mem_append.mp hck with hk' | hbr
      · exact Or.inr (Or.inr (Or.inr hk'))
      · exact Or.inr (Or.inr (Or.inl (List.mem_singleton.mp hbr)))

/-! ### File-system model of `FileSystemHelper.copy_template`

The source walks `src.rglob("*")`; we model the walk result as a list of
entries, each a directory or a file with text or binary content, carrying
its path relative to the template root. The effects are modelled as a list
of `Action`s, in walk order. -/

/-- File content: decodable text, or bytes that raise `UnicodeDecodeError`. -/
inductive FContent where
  | text (s : List Char)
  | binary (b : List Nat)
deriving DecidableEq, Repr

/-- One entry of the `rglob` walk, with its relative path as components. -/
inductive FEntry where
  | dir (relPath : List (List Char))
  | file (relPath : List (List Char)) (content : FContent)
deriving DecidableEq, Repr

/-- `item.name`: the last path component. -/
def FEntry.name : FEntry → List Char
  | .dir rel => rel.getLast?.getD []
  | .file rel _ => rel.getLast?.getD []

/-- `item.is_file()`. -/
def FEntry.isFile : FEntry → Bool
  | .dir _ => false
  | .file _ _ => true

/-- `dst / relative_path` rendered as a path string. -/
def joinPath (base : List Char) (rel : List (List Char)) : List Char :=
  rel.foldl (fun acc comp => acc ++ '/' :: comp) base

/-- The template manifest name, the one member of `excluded_files`. -/
def configYmlName : List Char := ['c', 'o', 'n', 'f', 'i', 'g', '.', 'y', 'm', 'l']

/-- The per-entry exclusion test of `copy_template`:
`item.name in excluded_files or (item.name.startswith('__') and item.name.endswith('__'))`. -/
def excludedName (name : List Char) : Bool :=
  name == configYmlName ||
    ( List.isPrefixOf ['_', '_'] name && List.isSuffixOf ['_', '_'] name)

/-- `item.name.startswith('.')`. -/
def hiddenName (name : List Char) : Bool := List.isPrefixOf ['.'] name

/-- A file-system effect of `copy_template`. -/
inductive Action where
  | mkdir (path : List Char)
  | writeText (path : List Char) (content : List Char)
  | writeBytes (path : List Char) (content : List Nat)
deriving DecidableEq, Repr

/-- The loop body of `copy_template` for one walked entry: the exclusion
test, the hidden-file test, then `mkdir` for directories or a write with
name and content substitution for files (binary files are copied raw after
`read_text` raises). -/
def processEntry (dst : List Char) (repl : List (List Char × List Char))
    (includeHidden : Bool) (e : FEntry) : List Action :=
  if excludedName (FEntry.name e) then []
  else if ¬ includeHidden ∧ hiddenName (FEntry.name e) ∧ FEntry.isFile e then []
  else match e with
    | .dir rel => [.mkdir (joinPath dst rel)]
    | .file rel (.text s) =>
        [.writeText (substPath repl (joinPath dst rel)) (substituteContent repl s)]
    | .file rel (.binary b) =>
        [.writeBytes (substPath repl (joinPath dst rel)) b]

/-- `FileSystemHelper.copy_template`: the effects of the whole walk. -/
def copy_template (src : List FEntry) (dst : List Char)
    (repl : List (List Char × List Char)) (includeHidden : Bool) : List Action :=
  (src.map (processEntry dst repl includeHidden)).flatten

/-- Case analysis on the action emitted for one entry. -/
theorem mem_processEntry {dst : List Char} {repl : List (List Char × List Char)}
    {hid : Bool} {e : FEntry} {a : Action} (ha : a ∈ processEntry dst repl hid e) :
    (∃ rel, e = .dir rel ∧ a = .mkdir (joinPath dst rel)) ∨
    (∃ rel s, e = .file rel (.text s) ∧
      a = .writeText (substPath repl (joinPath dst rel)) (substituteContent repl s)) ∨
    (∃ rel b, e = .file rel (.binary b) ∧
      a = .writeBytes (substPath repl (joinPath dst rel)) b) := by
  rw [processEntry.eq_def] at ha
  split at ha
  · exact absurd ha (List.not_mem_nil a)
  split at ha
  · exact absurd ha (List.not_mem_nil a)
  rcases e with rel | ⟨rel, s | b⟩
  · exact Or.inl ⟨rel, rfl, (List.mem_singleton.mp ha)⟩
  · exact Or.inr (Or.inl ⟨rel, s, rfl, (List.mem_singleton.mp ha)⟩)
  · exact Or.inr (Or.inr ⟨rel, b, rfl, (List.mem_singleton.mp ha)⟩)

/-- A hidden name (leading `.`) never matches the exclusion test. -/
theorem hiddenName_not_excluded {n : List Char} (h : hiddenName n = true) :
    excludedName n = false := by
  rcases n with _ | ⟨c0, rest⟩
  · simp [hiddenName, List.isPrefixOf] at h
  · have hc : c0 = '.' := by
      have := h
      simp only [hiddenName, List.isPrefixOf, Bool.and_eq_true, beq_iff_eq] at this
      exact this.1.symm
    subst hc
    simp only [excludedName, configYmlName, List.isPrefixOf, Bool.or_eq_false_iff,
      Bool.and_eq_false_iff]
    constructor
    · rw [List.cons_beq_cons]
      simp
    · exact Or.inl (by simp)

/-- C1 (amended): for a hygienic replacement map — every value nonempty,
avoiding `$`, both braces, and all keys' characters — every text file that
`copy_template` writes contains zero occurrences of the tokens `$KEY` and
`\x7bKEY\x7d`, for every key `KEY` of the map. -/
theorem copy_template_no_token (src : List FEntry) (dst : List Char)
    (repl : List (List Char × List Char)) (hid : Bool) (k v : List Char)
    (hsafe : mapSafe repl) (hmem : (k, v) ∈ repl) (a : Action)
    (ha : a ∈ copy_template src dst repl hid) (p s : List Char)
    (hw : a = Action.writeText p s) :
    ¬ dollarTok k <:+: s ∧ ¬ braceTok k <:+: s := by
  subst hw
  rw [copy_template] at ha
  obtain ⟨L, hL, haL⟩ := List.mem_flatten.mp ha
  obtain ⟨e, _, rfl⟩ := List.mem_map.mp hL
  rcases mem_processEntry haL with ⟨rel, _, hact⟩ | ⟨rel, s0, _, hact⟩ | ⟨rel, b, _, hact⟩
  · exact absurd hact (by simp)
  · have hs : s = substituteContent repl s0 := by
      injection hact.symm with h1 h2
      exact h2.symm
    rw [hs]
    exact substituteContent_no_token hsafe hmem s0
  · exact absurd hact (by simp)

/-- C1 counterexample input: a single-key map whose value contains the
token itself, and a template file holding the token. -/
def c1CexMap : List (List Char × List Char) := [(['K'], ['$', 'K'])]

/-- C1 counterexample template: one text file `a` with content `$K`. -/
def c1CexSrc : List FEntry := [.file [['a']] (.text ['$', 'K'])]

/-- C1 counterexample: with the map `K ↦ $K`, the source file contains the
token `$K` and the key `K` is in the map, yet the written file still
contains the literal token `$K`, refuting the claim as universally
quantified over replacement maps. -/
theorem c1_counterexample :
    (['K'], ['$', 'K']) ∈ c1CexMap ∧
    dollarTok ['K'] <:+: ['$', 'K'] ∧
    copy_template c1CexSrc ['o'] c1CexMap false =
      [Action.writeText ['o', '/', 'a'] ['$', 'K']] ∧
    dollarTok ['K'] <:+: ['$', 'K'] := by
  refine ⟨by decide, by decide, ?_, by decide⟩
  simp [copy_template, c1CexSrc, c1CexMap, processEntry, excludedName, hiddenName,
    configYmlName, List.isPrefixOf, FEntry.name, FEntry.isFile, joinPath,
    substPath, substituteContent, substStep, replaceAux]

/-- C1 witness: a hygienic single-key map `K ↦ v` on the same template
file leaves no token in the written content. -/
theorem c1_amended_witness :
    ¬ dollarTok ['K'] <:+: substituteContent [(['K'], ['v'])] ['$', 'K'] ∧
      ¬ braceTok ['K'] <:+: substituteContent [(['K'], ['v'])] ['$', 'K'] :=
  copy_template_no_token [.file [['a']] (.text ['$', 'K'])] ['o']
    [(['K'], ['v'])] false ['K'] ['v'] (by decide) (by decide)
    (Action.writeText (substPath [(['K'], ['v'])] (joinPath ['o'] [['a']]))
      (substituteContent [(['K'], ['v'])] ['$', 'K']))
    (by simp [copy_template, processEntry, excludedName, hiddenName, configYmlName,
      List.isPrefixOf, FEntry.name, FEntry.isFile])
    (substPath [(['K'], ['v'])] (joinPath ['o'] [['a']]))
    (substituteContent [(['K'], ['v'])] ['$', 'K']) rfl

/-- C3: the hidden-entry policy of `copy_template`. A file entry whose name
begins with `.` yields output when the include-hidden flag is true and
nothing when it is false; a directory entry whose name begins with `.` is
always created, for either flag value; a file whose own name is neither
hidden nor excluded is always written, whatever flag and whatever (possibly
hidden) ancestor directories appear in its relative path; and every action
of an entry of the walk is an action of `copy_template`. -/
theorem copy_template_hidden_policy (src : List FEntry) (dst : List Char)
    (repl : List (List Char × List Char)) (hid : Bool) (e : FEntry) :
    (FEntry.isFile e = true → hiddenName (FEntry.name e) = true →
      processEntry dst repl true e ≠ [] ∧ processEntry dst repl false e = []) ∧
    (∀ rel, hiddenName (FEntry.name (FEntry.dir rel)) = true →
      processEntry dst repl hid (FEntry.dir rel) = [Action.mkdir (joinPath dst rel)]) ∧
    (FEntry.isFile e = true → hiddenName (FEntry.name e) = false →
      excludedName (FEntry.name e) = false → processEntry dst repl hid e ≠ []) ∧
    (e ∈ src → ∀ a ∈ processEntry dst repl hid e, a ∈ copy_template src dst repl hid) := by
  refine ⟨?_, ?_, ?_, ?_⟩
  · intro hf hh
    constructor
    · rw [processEntry.eq_def, if_neg (by simp [hiddenName_not_excluded hh])]
      rw [if_neg (by simp)]
      rcases e with rel | ⟨rel, s | b⟩ <;> simp
    · rw [processEntry.eq_def, if_neg (by simp [hiddenName_not_excluded hh])]
      rw [if_pos ⟨by simp, hh, hf⟩]
  · intro rel hh
    rw [processEntry.eq_def, if_neg (by simp [hiddenName_not_excluded hh])]
    rw [if_neg (by simp [FEntry.isFile])]
  · intro hf hh hex
    rw [processEntry.eq_def, if_neg (by simp [hex]), if_neg (by simp [hh])]
    rcases e with rel | ⟨rel, s | b⟩ <;> simp
  · intro he a ha
    rw [copy_template]
    exact List.mem_flatten.mpr ⟨processEntry dst repl hid e, List.mem_map_of_mem _ he, ha⟩

/-- C3 witness: the hidden file `.env` is written when the flag is true and
skipped when it is false. -/
theorem c3_witness :
    processEntry ['o'] [] true (FEntry.file [['.', 'e', 'n', 'v']] (.text [])) ≠ [] ∧
      processEntry ['o'] [] false (FEntry.file [['.', 'e', 'n', 'v']] (.text [])) = [] :=
  (copy_template_hidden_policy [] ['o'] [] false
    (FEntry.file [['.', 'e', 'n', 'v']] (.text []))).1 (by decide) (by decide)

/-- C4 (amended): the exclusion test of `copy_template` is per walked entry,
not per subtree: an entry whose own name is `config.yml` or is wrapped in
double underscores produces no action itself, and conversely every emitted
action comes from an entry whose own name passes the exclusion test — but
descendants of an excluded directory carry their own names and are still
materialized (see the counterexample). -/
theorem copy_template_excluded_policy (src : List FEntry) (dst : List Char)
    (repl : List (List Char × List Char)) (hid : Bool) :
    (∀ e : FEntry, excludedName (FEntry.name e) = true → processEntry dst repl hid e = []) ∧
    (∀ a ∈ copy_template src dst repl hid,
      ∃ e ∈ src, excludedName (FEntry.name e) = false ∧ a ∈ processEntry dst repl hid e) := by
  constructor
  · intro e hex
    rw [processEntry.eq_def, if_pos hex]
  · intro a ha
    rw [copy_template] at ha
    obtain ⟨L, hL, haL⟩ := List.mem_flatten.mp ha
    obtain ⟨e, he, rfl⟩ := List.mem_map.mp hL
    refine ⟨e, he, ?_, haL⟩
    by_contra hnex
    have hex : excludedName (FEntry.name e) = true := by
      rcases Bool.eq_false_or_eq_true (excludedName (FEntry.name e)) with h | h
      · exact h
      · exact absurd h hnex
    rw [processEntry.eq_def, if_pos hex] at haL
    exact List.not_mem_nil a haL

/-- C4 witness: the manifest file `config.yml` itself is never copied. -/
theorem c4_amended_witness :
    processEntry ['o'] [] true (FEntry.file [configYmlName] (.text ['x'])) = [] :=
  (copy_template_excluded_policy [] ['o'] [] true).1
    (FEntry.file [configYmlName] (.text ['x'])) (by decide)

/-- C4 counterexample template: a directory `__x__` containing `a.txt`. -/
def c4CexSrc : List FEntry :=
  [.dir [['_', '_', 'x', '_', '_']],
   .file [['_', '_', 'x', '_', '_'], ['a', '.', 't', 'x', 't']] (.text ['h', 'i'])]

/-- C4 counterexample: the dunder-named directory entry itself is skipped,
yet the file beneath it is materialized at `o/__x__/a.txt` — refuting
"nor anything beneath such a directory is materialized". -/
theorem c4_counterexample :
    copy_template c4CexSrc ['o'] [] false =
      [Action.writeText
        ['o', '/', '_', '_', 'x', '_', '_', '/', 'a', '.', 't', 'x', 't']
        ['h', 'i']] := by
  rfl

/-! ### Orchestrator model: `ProjectTemplate.initialize` and the script
runner `_run_processing_script` -/

/-- Observable steps of one initialization request: creation, execution and
deletion of the temporary script file for each processing phase, the file
writes of `generate_structure`, and `setup_testing`. -/
inductive Ev where
  | preTemp | preExec | preDel
  | genWrite
  | testSetup
  | postTemp | postExec | postDel
deriving DecidableEq, Repr

/-- `config_data.get('pre_processing', \x7b\x7d).get('script', '')` in
`TemplateConfigProvider.get_init_info`: a missing block or a missing
`script` field both parse to the empty script. -/
def scriptOf (blk : Option (Option (List Char))) : List Char :=
  (blk.getD none).getD []

/-- Outcomes of the steps of `ProjectTemplate.initialize` for one request:
what `validate_parameters` returns, whether the manifest `config.yml`
exists (`get_init_info` raises otherwise), the raw pre/post blocks of the
parsed manifest, the exit codes the two scripts would produce, and the
effects and outcome of `generate_structure` and `setup_testing`. -/
structure TemplateBehavior where
  validateOk : Bool
  configYmlExists : Bool
  preBlock : Option (Option (List Char))
  postBlock : Option (Option (List Char))
  preExit : Nat
  postExit : Nat
  genEvents : List Ev
  genOk : Bool
  testEvents : List Ev
  testOk : Bool
deriving DecidableEq, Repr

/-- `run_pre_processing` / `run_post_processing` with
`_run_processing_script`: `get_init_info` raises when the manifest is
missing; an empty parsed script fails the guard and nothing runs; otherwise
a temporary file is created, the script executed synchronously via
`subprocess.run(check=True)`, the file deleted in the `finally`, and the
phase succeeds exactly when the exit code is zero. -/
def runProcessing (blk : Option (Option (List Char))) (exitCode : Nat)
    (t x d : Ev) (cfgExists : Bool) : List Ev × Bool :=
  if cfgExists = false then ([], false)
  else if scriptOf blk = [] then ([], true)
  else ([t, x, d], exitCode == 0)

/-- `run_pre_processing`. -/
def runPre (b : TemplateBehavior) : List Ev × Bool :=
  runProcessing b.preBlock b.preExit .preTemp .preExec .preDel b.configYmlExists

/-- `run_post_processing`. -/
def runPost (b : TemplateBehavior) : List Ev × Bool :=
  runProcessing b.postBlock b.postExit .postTemp .postExec .postDel b.configYmlExists

/-- `ProjectTemplate.initialize`: validate, pre-process, generate
structure, set up testing, post-process, then return `true`; any failing
step raises, the blanket `except` catches it and `false` is returned. The
second component is the trace of effects up to the step reached. -/
def initializeModel (b : TemplateBehavior) : Bool × List Ev :=
  if b.validateOk = false then (false, [])
  else if (runPre b).2 = false then (false, (runPre b).1)
  else if b.genOk = false then (false, (runPre b).1 ++ b.genEvents)
  else if b.testOk = false then (false, (runPre b).1 ++ b.genEvents ++ b.testEvents)
  else ((runPost b).2, (runPre b).1 ++ b.genEvents ++ b.testEvents ++ (runPost b).1)

/-- C5: pre-processing is synchronous and ordered before generation. If the
pre-processing script is nonempty and exits non-zero, `initialize` returns
failure and no generation write appears in the trace; and in every run the
trace is the complete pre-processing trace followed by the later steps,
which are nonempty only when pre-processing succeeded. -/
theorem initialize_pre_processing_first (b : TemplateBehavior) :
    (scriptOf b.preBlock ≠ [] → b.preExit ≠ 0 →
      (initializeModel b).1 = false ∧ Ev.genWrite ∉ (initializeModel b).2) ∧
    ((initializeModel b).2 = [] ∨
      ∃ rest, (initializeModel b).2 = (runPre b).1 ++ rest ∧
        (rest ≠ [] → (runPre b).2 = true)) := by
  constructor
  · intro hs hx
    have hx' : (b.preExit == 0) = false := by
      simp only [beq_eq_false_iff_ne, ne_eq]
      exact hx
    cases hv : b.validateOk with
    | false => simp [initializeModel, hv]
    | true =>
      cases hc : b.configYmlExists with
      | false =>
        simp [initializeModel, runPre, runProcessing, hv, hc]
      | true =>
        have hpre : runPre b = ([Ev.preTemp, Ev.preExec, Ev.preDel], false) := by
          simp [runPre, runProcessing, hc, hs, hx']
        simp [initializeModel, hv, hpre]
  · cases hv : b.validateOk with
    | false => exact Or.inl (by simp [initializeModel, hv])
    | true =>
      cases hp : (runPre b).2 with
      | false =>
        refine Or.inr ⟨[], by simp [initializeModel, hv, hp], fun h => absurd rfl h⟩
      | true =>
        cases hg : b.genOk with
        | false =>
          exact Or.inr ⟨b.genEvents, by simp [initializeModel, hv, hp, hg], fun _ => rfl⟩
        | true =>
          cases ht : b.testOk with
          | false =>
            exact Or.inr ⟨b.genEvents ++ b.testEvents,
              by simp [initializeModel, hv, hp, hg, ht], fun _ => rfl⟩
          | true =>
            exact Or.inr ⟨b.genEvents ++ b.testEvents ++ (runPost b).1,
              by simp [initializeModel, hv, hp, hg, ht], fun _ => rfl⟩

/-- Behavior with everything succeeding except a failing pre-processing
script. -/
def preFailBehavior : TemplateBehavior :=
  { validateOk := true, configYmlExists := true,
    preBlock := some (some ['x']), postBlock := none,
    preExit := 1, postExit := 0,
    genEvents := [.genWrite], genOk := true, testEvents := [.testSetup], testOk := true }

/-- C5 witness: with a failing pre-processing script, `initialize` fails
and nothing is generated. -/
theorem c5_witness :
    (initializeModel preFailBehavior).1 = false ∧
      Ev.genWrite ∉ (initializeModel preFailBehavior).2 :=
  (initialize_pre_processing_first preFailBehavior).1 (by decide) (by decide)

/-- Behavior with everything succeeding except a failing post-processing
script. -/
def postFailBehavior : TemplateBehavior :=
  { validateOk := true, configYmlExists := true,
    preBlock := none, postBlock := some (some ['x']),
    preExit := 0, postExit := 1,
    genEvents := [.genWrite], genOk := true, testEvents := [.testSetup], testOk := true }

/-- C2: in the source as it stands, the post-processing script runs
synchronously inside `initialize` and its non-zero exit makes `initialize`
return `false` — the boolean result is changed by the post-processing
failure, and there is no `wait_for_post_process_completed` on the class at
all (the repository's tests call it). -/
theorem c2_post_failure_changes_result :
    (initializeModel postFailBehavior).1 = false ∧
      Ev.postExec ∈ (initializeModel postFailBehavior).2 := by decide

/-- C10: an omitted `pre_processing`/`post_processing` block, or a block
whose `script` is the empty string, makes the corresponding phase run no
subprocess and create no temporary file, and `initialize` behaves exactly
as if the blocks were absent. -/
theorem empty_script_no_processing (b : TemplateBehavior)
    (hc : b.configYmlExists = true)
    (hpre : b.preBlock = none ∨ b.preBlock = some (some []))
    (hpost : b.postBlock = none ∨ b.postBlock = some (some [])) :
    runPre b = ([], true) ∧ runPost b = ([], true) ∧
      initializeModel b = initializeModel { b with preBlock := none, postBlock := none } := by
  have h1 : scriptOf b.preBlock = [] := by rcases hpre with h | h <;> simp [scriptOf, h]
  have h2 : scriptOf b.postBlock = [] := by rcases hpost with h | h <;> simp [scriptOf, h]
  have hpreb : runPre b = ([], true) := by simp [runPre, runProcessing, hc, h1]
  have hpostb : runPost b = ([], true) := by simp [runPost, runProcessing, hc, h2]
  have hpre0 : runPre { b with preBlock := none, postBlock := none } = ([], true) := by
    simp [runPre, runProcessing, scriptOf, hc]
  have hpost0 : runPost { b with preBlock := none, postBlock := none } = ([], true) := by
    simp [runPost, runProcessing, scriptOf, hc]
  exact ⟨hpreb, hpostb, by simp [initializeModel, hpreb, hpostb, hpre0, hpost0]⟩

/-- Behavior whose post-processing block carries an empty script. -/
def emptyScriptBehavior : TemplateBehavior :=
  { validateOk := true, configYmlExists := true,
    preBlock := none, postBlock := some (some []),
    preExit := 1, postExit := 1,
    genEvents := [.genWrite], genOk := true, testEvents := [], testOk := true }

/-- C10 witness: with an absent pre block and an empty post script, neither
phase creates a temporary file or runs a subprocess. -/
theorem c10_witness :
    runPre emptyScriptBehavior = ([], true) ∧ runPost emptyScriptBehavior = ([], true) ∧
      initializeModel emptyScriptBehavior =
        initializeModel { emptyScriptBehavior with preBlock := none, postBlock := none } :=
  empty_script_no_processing emptyScriptBehavior (by decide) (by decide) (by decide)

/-! ### `ProjectTemplateFactory.create_template` and
`ProjectInitializer.initialize_project` -/

/-- Python exceptions relevant to template creation. -/
inductive PyError where
  | valueError
  | fileNotFoundError
deriving DecidableEq, Repr

/-- `ProjectTemplateFactory.create_template`: raises `ValueError` when no
template class is registered for the project type; otherwise the template
constructor runs `TemplateProvider.get_template_path`, which raises
`FileNotFoundError` when the template directory does not exist. -/
def create_template (registered templateDirExists : Bool) : Except PyError Unit :=
  if registered = false then .error .valueError
  else if templateDirExists = false then .error .fileNotFoundError
  else .ok ()

/-- `ProjectInitializer.initialize_project`: calls `create_template` with
no surrounding try/except — its exceptions propagate — then returns the
boolean from `template.initialize()`, whose own body catches everything. -/
def initialize_project (registered templateDirExists : Bool)
    (b : TemplateBehavior) : Except PyError Bool :=
  match create_template registered templateDirExists with
  | .error e => .error e
  | .ok _ => .ok (initializeModel b).1

/-- C7 counterexample: a config whose project type has no registered
template makes `initialize_project` raise `ValueError`, and one whose
template directory is missing makes it raise `FileNotFoundError` — the
exceptions escape `initialize_project` instead of becoming a boolean. -/
theorem c7_counterexample :
    initialize_project false true postFailBehavior = .error .valueError ∧
      initialize_project true false postFailBehavior = .error .fileNotFoundError :=
  ⟨rfl, rfl⟩

/-- C7 (amended): once template creation succeeds — the project type is
registered and the template directory exists — `initialize_project`
always returns a boolean (every error inside `initialize` is caught), and
any escaping exception can only come from template creation. -/
theorem initialize_project_exception_policy (registered templateDirExists : Bool)
    (b : TemplateBehavior) :
    (registered = true → templateDirExists = true →
      initialize_project registered templateDirExists b = .ok (initializeModel b).1) ∧
    (∀ e, initialize_project registered templateDirExists b = .error e →
      registered = false ∨ templateDirExists = false) := by
  constructor
  · intro h1 h2
    simp [initialize_project, create_template, h1, h2]
  · intro e he
    cases hr : registered with
    | false => exact Or.inl rfl
    | true =>
      cases hd : templateDirExists with
      | false => exact Or.inr rfl
      | true =>
        rw [hr, hd] at he
        simp [initialize_project, create_template] at he

/-- C7 witness: with a registered type and an existing template directory,
`initialize_project` returns the boolean from `initialize`. -/
theorem c7_amended_witness :
    initialize_project true true postFailBehavior =
      .ok (initializeModel postFailBehavior).1 :=
  (initialize_project_exception_policy true true postFailBehavior).1 rfl rfl

/-! ### `ProjectConfig.get_replaceable_parameters` (templateconfig.py) -/

/-- A Python primitive parameter value (`parameters: Dict[str, Any]` holds
bools, numbers and strings). -/
inductive PValue where
  | pBool (b : Bool)
  | pInt (n : Int)
  | pStr (s : List Char)
deriving DecidableEq, Repr

/-- Python `str(value)`. -/
def pyStr : PValue → List Char
  | .pBool true => ['T', 'r', 'u', 'e']
  | .pBool false => ['F', 'a', 'l', 's', 'e']
  | .pInt n => (toString n).toList
  | .pStr s => s

/-- Python `str.lower()`. -/
def pyLower (s : List Char) : List Char := s.map Char.toLower

/-- Python `dict.get(k)` on an association list. -/
def pyGet (params : List (List Char × PValue)) (k : List Char) : Option PValue :=
  (List.find? (fun kv => kv.1 == k) params).map (fun kv => kv.2)

/-- The fields of `ProjectConfig` used by `get_replaceable_parameters`. -/
structure PyProjectConfig where
  name : List Char
  version : List Char
  description : List Char
  author : List Char
  output_path : List Char
  parameters : List (List Char × PValue)

/-- `ProjectConfig.get_replaceable_parameters`: the literal seven-entry
dictionary built in templateconfig.py, in source order. -/
def get_replaceable_parameters (c : PyProjectConfig) : List (List Char × PValue) :=
  [("KAVIA_TEMPLATE_PROJECT_NAME".toList, .pStr c.name),
   ("KAVIA_PROJECT_DESCRIPTION".toList, .pStr c.description),
   ("KAVIA_PROJECT_AUTHOR".toList, .pStr c.author),
   ("KAVIA_PROJECT_VERSION".toList, .pStr c.version),
   ("KAVIA_USE_TYPESCRIPT".toList,
     .pStr (pyLower (pyStr ((pyGet c.parameters "typescript".toList).getD (.pBool false))))),
   ("KAVIA_STYLING_SOLUTION".toList,
     (pyGet c.parameters "styling_solution".toList).getD (.pStr "css".toList)),
   ("KAVIA_PROJECT_DIRECTORY".toList, .pStr c.output_path)]

/-- A path string is absolute when it starts with `/`
(`str(self.output_path)` performs no absolutization). -/
def isAbsolutePath (p : List Char) : Bool := List.isPrefixOf ['/'] p

/-- C8 counterexample config: a relative output path and a non-boolean
`typescript` parameter. -/
def c8CexConfig : PyProjectConfig :=
  { name := "n".toList, version := "1".toList, description := [], author := [],
    output_path := "out".toList,
    parameters := [("typescript".toList, .pStr "1".toList)] }

/-- C8 counterexample: with `typescript` set to the string `"1"`, the
rendered `KAVIA_USE_TYPESCRIPT` value is `"1"`, neither `"true"` nor
`"false"`; and the `KAVIA_PROJECT_DIRECTORY` value is the configured
relative path `out`, not an absolute directory. -/
theorem c8_counterexample :
    pyGet (get_replaceable_parameters c8CexConfig) "KAVIA_USE_TYPESCRIPT".toList =
        some (.pStr ['1']) ∧
    (['1'] : List Char) ≠ "true".toList ∧ (['1'] : List Char) ≠ "false".toList ∧
    pyGet (get_replaceable_parameters c8CexConfig) "KAVIA_PROJECT_DIRECTORY".toList =
        some (.pStr "out".toList) ∧
    isAbsolutePath "out".toList = false := by
  refine ⟨rfl, by decide, by decide, rfl, by decide⟩

/-- C8 (amended): for every config, the replacement map contains all seven
fixed keys; the `KAVIA_USE_TYPESCRIPT` value is the lowercase rendering of
the `typescript` parameter and equals `"true"`/`"false"` whenever that
parameter is absent or boolean; and the `KAVIA_PROJECT_DIRECTORY` value is
the configured output path as given (absolute only when configured so). -/
theorem get_replaceable_parameters_fixed_keys (c : PyProjectConfig) :
    (pyGet (get_replaceable_parameters c) "KAVIA_TEMPLATE_PROJECT_NAME".toList =
      some (.pStr c.name)) ∧
    (pyGet (get_replaceable_parameters c) "KAVIA_PROJECT_DESCRIPTION".toList =
      some (.pStr c.description)) ∧
    (pyGet (get_replaceable_parameters c) "KAVIA_PROJECT_AUTHOR".toList =
      some (.pStr c.author)) ∧
    (pyGet (get_replaceable_parameters c) "KAVIA_PROJECT_VERSION".toList =
      some (.pStr c.version)) ∧
    ((pyGet (get_replaceable_parameters c) "KAVIA_USE_TYPESCRIPT".toList).isSome = true) ∧
    ((pyGet (get_replaceable_parameters c) "KAVIA_STYLING_SOLUTION".toList).isSome = true) ∧
    (pyGet (get_replaceable_parameters c) "KAVIA_PROJECT_DIRECTORY".toList =
      some (.pStr c.output_path)) ∧
    (pyGet c.parameters "typescript".toList = none →
      pyGet (get_replaceable_parameters c) "KAVIA_USE_TYPESCRIPT".toList =
        some (.pStr "false".toList)) ∧
    (∀ bv : Bool, pyGet c.parameters "typescript".toList = some (.pBool bv) →
      pyGet (get_replaceable_parameters c) "KAVIA_USE_TYPESCRIPT".toList =
        some (.pStr (if bv then "true".toList else "false".toList))) := by
  refine ⟨rfl, rfl, rfl, rfl, rfl, rfl, rfl, ?_, ?_⟩
  · intro h
    have : pyGet (get_replaceable_parameters c) "KAVIA_USE_TYPESCRIPT".toList =
        some (.pStr (pyLower (pyStr ((pyGet c.parameters "typescript".toList).getD
          (.pBool false))))) := rfl
    rw [this, h]
    rfl
  · intro bv h
    have : pyGet (get_replaceable_parameters c) "KAVIA_USE_TYPESCRIPT".toList =
        some (.pStr (pyLower (pyStr ((pyGet c.parameters "typescript".toList).getD
          (.pBool false))))) := rfl
    rw [this, h]
    cases bv <;> rfl

/-- C8 witness: on a config with a boolean `typescript` parameter the
rendering is the lowercase `"true"`. -/
theorem c8_amended_witness :
    pyGet (get_replaceable_parameters
        { name := [], version := [], description := [], author := [],
          output_path := ['/', 'o'],
          parameters := [("typescript".toList, .pBool true)] })
      "KAVIA_USE_TYPESCRIPT".toList = some (.pStr (if true then "true".toList
        else "false".toList)) :=
  (get_replaceable_parameters_fixed_keys
    { name := [], version := [], description := [], author := [],
      output_path := ['/', 'o'],
      parameters := [("typescript".toList, .pBool true)] }).2.2.2.2.2.2.2.2 true rfl

/-! ### `ReactTemplate.validate_parameters` and C9 -/

/-- Python `'k' in self.config.parameters`. -/
def hasParam (params : List (List Char × PValue)) (k : List Char) : Bool :=
  params.any (fun kv => kv.1 == k)

/-- `ReactTemplate.validate_parameters`: both `typescript` and
`styling_solution` must be present in the parameters. -/
def reactValidateParameters (params : List (List Char × PValue)) : Bool :=
  hasParam params "typescript".toList && hasParam params "styling_solution".toList

/-- `ReactTemplate`-flavoured `initialize`: the validation outcome is
computed from the parameters, the remaining step outcomes come from the
environment. -/
def reactInitialize (params : List (List Char × PValue)) (b : TemplateBehavior) :
    Bool × List Ev :=
  initializeModel { b with validateOk := reactValidateParameters params }

/-- C9: when a required React parameter is missing, `initialize` returns
failure with an empty trace — no file-system effect at all happens, in
particular the output directory is neither created nor populated, and
validation fails before any processing or generation step. -/
theorem react_missing_params_aborts (params : List (List Char × PValue))
    (b : TemplateBehavior)
    (h : hasParam params "typescript".toList = false ∨
      hasParam params "styling_solution".toList = false) :
    reactInitialize params b = (false, []) := by
  have hv : reactValidateParameters params = false := by
    rw [reactValidateParameters]
    rcases h with h | h
    · rw [h, Bool.false_and]
    · rw [h, Bool.and_false]
  simp [reactInitialize, initializeModel, hv]

/-- C9 witness: the empty parameter set fails React initialization with no
effects. -/
theorem c9_witness : reactInitialize [] postFailBehavior = (false, []) :=
  react_missing_params_aborts [] postFailBehavior (Or.inl rfl)

/-! ### Extra-files merge of `copy_template` -/

/-- Modelled from the spec: the `extra_files` argument of
`FileSystemHelper.copy_template` is absent from the snapshot of
universalinit.py (only its callers in the test suite remain), so the
resolution of one listed path is modelled from the specification: a path
denotes a file with some content, a directory with a subtree, or nothing. -/
inductive ExtraItem where
  | missing (baseName : List Char)
  | file (baseName : List Char) (content : FContent)
  | directory (baseName : List Char) (entries : List FEntry)
deriving DecidableEq, Repr

/-- Copy of one subtree entry with the usual substitution treatment and no
filtering, used for the recursive copy of an extra directory. -/
def copyPlain (base : List Char) (repl : List (List Char × List Char)) :
    FEntry → Action
  | .dir rel => .mkdir (joinPath base rel)
  | .file rel (.text s) =>
      .writeText (substPath repl (joinPath base rel)) (substituteContent repl s)
  | .file rel (.binary b) =>
      .writeBytes (substPath repl (joinPath base rel)) b

/-- Modelled from the spec: the handling of one entry of the extra-files
list — a file is copied with the same substitution treatment into the
destination root under its base name; a directory is copied recursively
into the destination root; a nonexistent path is skipped silently. -/
def copyExtra (dst : List Char) (repl : List (List Char × List Char)) :
    ExtraItem → List Action
  | .missing _ => []
  | .file n (.text s) =>
      [.writeText (substPath repl (joinPath dst [n])) (substituteContent repl s)]
  | .file n (.binary b) =>
      [.writeBytes (substPath repl (joinPath dst [n])) b]
  | .directory n entries => entries.map (copyPlain (joinPath dst [n]) repl)

/-- Modelled from the spec: `copy_template` extended with the optional
extra-files list, merged into the output after the template walk. -/
def copy_template_extra (src : List FEntry) (dst : List Char)
    (repl : List (List Char × List Char)) (hid : Bool)
    (extras : List ExtraItem) : List Action :=
  copy_template src dst repl hid ++ (extras.map (copyExtra dst repl)).flatten

/-- C6: the extra-files merge. A listed file is copied (with the same
substitution treatment: name substitution and content substitution for
decodable text, a raw byte-for-byte copy for binary content) into the
destination root under its base name; a listed directory has its full
subtree copied into the destination root with the same treatment; a
nonexistent path contributes nothing and leaves the rest of the operation
intact (skipped silently, non-fatally). -/
theorem copy_template_extra_merge (src : List FEntry) (dst : List Char)
    (repl : List (List Char × List Char)) (hid : Bool) (extras : List ExtraItem) :
    (∀ n s, ExtraItem.file n (.text s) ∈ extras →
      Action.writeText (substPath repl (joinPath dst [n])) (substituteContent repl s) ∈
        copy_template_extra src dst repl hid extras) ∧
    (∀ n b, ExtraItem.file n (.binary b) ∈ extras →
      Action.writeBytes (substPath repl (joinPath dst [n])) b ∈
        copy_template_extra src dst repl hid extras) ∧
    (∀ n es e, ExtraItem.directory n es ∈ extras → e ∈ es →
      copyPlain (joinPath dst [n]) repl e ∈ copy_template_extra src dst repl hid extras) ∧
    (∀ n, copyExtra dst repl (ExtraItem.missing n) = [] ∧
      copy_template_extra src dst repl hid [ExtraItem.missing n] =
        copy_template src dst repl hid) := by
  refine ⟨?_, ?_, ?_, ?_⟩
  · intro n s hmem
    apply List.mem_append_right
    exact List.mem_flatten.mpr ⟨copyExtra dst repl (ExtraItem.file n (.text s)),
      List.mem_map_of_mem _ hmem, List.mem_singleton.mpr rfl⟩
  · intro n b hmem
    apply List.mem_append_right
    exact List.mem_flatten.mpr ⟨copyExtra dst repl (ExtraItem.file n (.binary b)),
      List.mem_map_of_mem _ hmem, List.mem_singleton.mpr rfl⟩
  · intro n es e hmem he
    apply List.mem_append_right
    exact List.mem_flatten.mpr ⟨copyExtra dst repl (ExtraItem.directory n es),
      List.mem_map_of_mem _ hmem, List.mem_map_of_mem _ he⟩
  · intro n
    exact ⟨rfl, by simp [copy_template_extra, copyExtra]⟩

/-- The extra-files list used by the C6 witness: one text file `e` and one
binary file `b`. -/
def c6WitnessExtras : List ExtraItem :=
  [ExtraItem.file ['e'] (.text ['h']), ExtraItem.file ['b'] (.binary [137])]

/-- C6 witness: the extra text file `e` is merged into the destination
root with substitution applied, and the extra binary file `b` is merged
with its bytes copied raw. -/
theorem c6_witness :
    (Action.writeText (substPath [] (joinPath ['o'] [['e']])) (substituteContent [] ['h']) ∈
      copy_template_extra [] ['o'] [] false c6WitnessExtras) ∧
    (Action.writeBytes (substPath [] (joinPath ['o'] [['b']])) [137] ∈
      copy_template_extra [] ['o'] [] false c6WitnessExtras) :=
  ⟨(copy_template_extra_merge [] ['o'] [] false c6WitnessExtras).1
      ['e'] ['h'] (by decide),
   (copy_template_extra_merge [] ['o'] [] false c6WitnessExtras).2.1
      ['b'] [137] (by decide)⟩

end UnivInit
